import Mathlib

/-!
Verification of the `BatchDistributorV2` dual-signature batch distributor.

The development shallowly embeds:
* the Solidity contract `BatchDistributorV2` (digest construction
  `getBatchTokenDigest`, `batchDistributeTokenDualSig`,
  `batchDistributeNative`, `_precheckBatch`, `_sum`, admin functions);
* the off-chain companion `getTypedData` (typedData.ts) together with the
  EIP-712 hashing that `signTypedData` performs on its output, and the
  `sum` helper (utils.ts).

Machine words are `Nat`s with explicit `% 2 ^ 256` bounds where overflow
matters; keccak256 is an abstract parameter `k : List Nat → Nat` over byte
lists; ECDSA recovery is an abstract parameter `recover`; the external
ERC-20 token and the native call are abstract parameters as well, so the
theorems hold for every behaviour of the external world.
-/

/-- 32-byte big-endian encoding of a 256-bit word (one `Nat` per byte). -/
def word_be (n : Nat) : List Nat :=
  (List.range 32).map fun i => n / 256 ^ (31 - i) % 256

/-- UTF-8/ASCII bytes of a string (all strings involved are ASCII). -/
def strBytes (s : String) : List Nat :=
  s.data.map Char.toNat

/-- Concatenation of byte chunks. -/
def concatAll : List (List Nat) → List Nat
  | [] => []
  | l :: ls => l ++ concatAll ls

/-- `abi.encode` of a tuple of static 32-byte words. -/
def abiEncodeWords (ws : List Nat) : List Nat :=
  concatAll (ws.map word_be)

/-- `abi.encode` of one dynamic array of words (`address[]` / `uint256[]`):
head offset `0x20`, then the length, then the padded elements. -/
def abiEncodeWordArray (xs : List Nat) : List Nat :=
  word_be 32 ++ word_be xs.length ++ concatAll (xs.map word_be)

/-- Solidity 0.8 checked addition on `uint256`: reverts (`none`) on
overflow instead of wrapping. -/
def checkedAdd (a b : Nat) : Option Nat :=
  if a + b < 2 ^ 256 then some (a + b) else none

def sum256Aux (acc : Nat) : List Nat → Option Nat
  | [] => some acc
  | a :: rest =>
    match checkedAdd acc a with
    | none => none
    | some s => sum256Aux s rest

/-- The contract's `_sum`: `for (i) total += amounts[i]` with Solidity 0.8
checked arithmetic, so it reverts rather than wrapping past `2 ^ 256`. -/
def sum256 (amounts : List Nat) : Option Nat :=
  sum256Aux 0 amounts

/-- utils.ts `sum`: `arr.reduce((a, b) => a + b, 0n)` over exact bigints. -/
def jsSum (arr : List Nat) : Nat :=
  arr.foldl (· + ·) 0

/-! ## On-chain digest (`getBatchTokenDigest` plus OpenZeppelin EIP712) -/

/-- `BATCH_TOKEN_TYPEHASH`, as in the contract. -/
def BATCH_TOKEN_TYPEHASH (k : List Nat → Nat) : Nat :=
  k (strBytes "BatchToken(bytes32 batchId,address token,bytes32 recipientsHash,bytes32 amountsHash,uint256 totalAmount,uint256 deadline)")

/-- OpenZeppelin's `EIP712Domain` type hash. -/
def EIP712_DOMAIN_TYPEHASH (k : List Nat → Nat) : Nat :=
  k (strBytes "EIP712Domain(string name,string version,uint256 chainId,address verifyingContract)")

/-- OpenZeppelin `EIP712("BatchDistributorV2", "1")` domain separator for a
given chain id and contract address. -/
def domainSeparatorV4 (k : List Nat → Nat) (chainId selfAddr : Nat) : Nat :=
  k (abiEncodeWords
      [EIP712_DOMAIN_TYPEHASH k, k (strBytes "BatchDistributorV2"),
       k (strBytes "1"), chainId, selfAddr])

/-- `_hashTypedDataV4`: `keccak256(0x19 ‖ 0x01 ‖ domainSeparator ‖ structHash)`. -/
def hashTypedDataV4 (k : List Nat → Nat) (chainId selfAddr structHash : Nat) : Nat :=
  k ([25, 1] ++ word_be (domainSeparatorV4 k chainId selfAddr) ++ word_be structHash)

/-- The struct hash of `getBatchTokenDigest`, with `totalAmount` passed
explicitly. -/
def batchTokenStructHash (k : List Nat → Nat)
    (batchId token : Nat) (recipients amounts : List Nat)
    (totalAmount deadline : Nat) : Nat :=
  k (abiEncodeWords
      [BATCH_TOKEN_TYPEHASH k, batchId, token,
       k (abiEncodeWordArray recipients), k (abiEncodeWordArray amounts),
       totalAmount, deadline])

/-- The full on-chain digest with `totalAmount` passed explicitly. -/
def batchTokenDigest (k : List Nat → Nat) (chainId selfAddr : Nat)
    (batchId token : Nat) (recipients amounts : List Nat)
    (totalAmount deadline : Nat) : Nat :=
  hashTypedDataV4 k chainId selfAddr
    (batchTokenStructHash k batchId token recipients amounts totalAmount deadline)

/-- The contract's `getBatchTokenDigest`: hashes the two arrays with
`abi.encode`, sums the amounts with `_sum` (checked, so `none` on
overflow), combines with the typehash and binds to the EIP-712 domain. -/
def getBatchTokenDigest (k : List Nat → Nat) (chainId selfAddr : Nat)
    (batchId token : Nat) (recipients amounts : List Nat)
    (deadline : Nat) : Option Nat :=
  match sum256 amounts with
  | none => none
  | some totalAmount =>
    some (batchTokenDigest k chainId selfAddr batchId token recipients amounts
            totalAmount deadline)

/-! ## Off-chain companion (typedData.ts `getTypedData` fed to ethers'
EIP-712 hashing) -/

structure TypedField where
  fname : String
  ftype : String
deriving DecidableEq

/-- The object returned by `getTypedData`: an EIP-712 domain, a primary
struct type described by a field list, and the value record. -/
structure TypedDataMsg where
  domainName : String
  domainVersion : String
  domainChainId : Nat
  domainVerifyingContract : Nat
  primaryType : String
  fields : List TypedField
  value : List (String × Nat)
deriving DecidableEq

/-- typedData.ts `getTypedData`: hashes `recipients` / `amounts` with the
default ABI coder, computes `totalAmount` as the exact bigint sum, and
returns the domain, the `BatchToken` type description and the value. -/
def getTypedData (k : List Nat → Nat) (chainId verifyingContract : Nat)
    (batchId token : Nat) (recipients amounts : List Nat)
    (deadline : Nat) : TypedDataMsg :=
  { domainName := "BatchDistributorV2"
    domainVersion := "1"
    domainChainId := chainId
    domainVerifyingContract := verifyingContract
    primaryType := "BatchToken"
    fields :=
      [⟨"batchId", "bytes32"⟩, ⟨"token", "address"⟩,
       ⟨"recipientsHash", "bytes32"⟩, ⟨"amountsHash", "bytes32"⟩,
       ⟨"totalAmount", "uint256"⟩, ⟨"deadline", "uint256"⟩]
    value :=
      [("batchId", batchId), ("token", token),
       ("recipientsHash", k (abiEncodeWordArray recipients)),
       ("amountsHash", k (abiEncodeWordArray amounts)),
       ("totalAmount", jsSum amounts), ("deadline", deadline)] }

/-- Field lookup in the value record, as ethers does by name. -/
def findVal : List (String × Nat) → String → Option Nat
  | [], _ => none
  | (n, v) :: rest, key => if n = key then some v else findVal rest key

/-- ethers' EIP-712 `encodeType` for a flat struct. -/
def encodeTypeStr (primary : String) (fs : List TypedField) : String :=
  primary ++ "(" ++ String.intercalate "," (fs.map fun f => f.ftype ++ " " ++ f.fname) ++ ")"

/-- ethers' encoding of one atomic value, with the range checks ethers
performs (`address` must fit 160 bits, `uint256`/`bytes32` 256 bits). -/
def encodeAtomicValue (t : String) (v : Nat) : Option (List Nat) :=
  if t = "address" then (if v < 2 ^ 160 then some (word_be v) else none)
  else if t = "uint256" then (if v < 2 ^ 256 then some (word_be v) else none)
  else if t = "bytes32" then (if v < 2 ^ 256 then some (word_be v) else none)
  else none

/-- ethers' struct-data encoding: each declared field, in type order, is
looked up by name and encoded as a 32-byte block. -/
def encodeFieldsData (value : List (String × Nat)) : List TypedField → Option (List Nat)
  | [] => some []
  | f :: fs =>
    match findVal value f.fname with
    | none => none
    | some v =>
      match encodeAtomicValue f.ftype v with
      | none => none
      | some bs =>
        match encodeFieldsData value fs with
        | none => none
        | some rest => some (bs ++ rest)

/-- ethers' `hashStruct`: keccak of the type hash followed by the encoded
field data. -/
def hashStructEthers (k : List Nat → Nat) (td : TypedDataMsg) : Option Nat :=
  match encodeFieldsData td.value td.fields with
  | none => none
  | some data =>
    some (k (word_be (k (strBytes (encodeTypeStr td.primaryType td.fields))) ++ data))

/-- ethers' `hashDomain` for a `{name, version, chainId, verifyingContract}`
domain. -/
def ethersDomainSeparator (k : List Nat → Nat) (td : TypedDataMsg) : Nat :=
  k (abiEncodeWords
      [k (strBytes "EIP712Domain(string name,string version,uint256 chainId,address verifyingContract)"),
       k (strBytes td.domainName), k (strBytes td.domainVersion),
       td.domainChainId, td.domainVerifyingContract])

/-- The digest `signTypedData` signs: `keccak256(0x19 ‖ 0x01 ‖
hashDomain ‖ hashStruct)`, with ethers' range validation of the domain
fields. -/
def hashTypedDataEthers (k : List Nat → Nat) (td : TypedDataMsg) : Option Nat :=
  if td.domainChainId < 2 ^ 256 ∧ td.domainVerifyingContract < 2 ^ 160 then
    match hashStructEthers k td with
    | none => none
    | some hs =>
      some (k ([25, 1] ++ word_be (ethersDomainSeparator k td) ++ word_be hs))
  else none

/-! ## The contract state machine

State-changing entry points are pure functions
`state → arguments → Except Err (state × events)`; an `Except.error`
models an EVM revert, after which the caller's state is unchanged.  The
external world is abstract: the ERC-20 token ledger is a type parameter
`τ` with a `transferFn` (which may revert, or return a success boolean the
way `IERC20.transfer` does) and a `balanceOf`; the low-level native call
outcome is a boolean parameter. -/

/-- The contract's custom errors, plus revert reasons of `require`
strings, the role/pause modifier reverts, and checked-arithmetic panic. -/
inductive Err where
  | ZeroAddress
  | InvalidArrayLengths
  | EmptyBatch
  | BatchTooLarge (size max : Nat)
  | TokenNotWhitelisted (token : Nat)
  | BatchAlreadyExecuted (batchId : Nat)
  | InvalidAmount
  | InvalidSignature
  | InvalidSigner
  | SameSubmitterAndExecutorNotAllowed
  | RequireFail (reason : String)
  | NotAuthorized
  | EnforcedPause
  | ExpectedPause
  | Overflow
deriving DecidableEq

/-- The contract's events. -/
inductive Event where
  | TokenWhitelistUpdated (token : Nat) (whitelisted : Bool)
  | TransferItem (batchId token toAddr amount : Nat)
  | BatchExecuted (batchId token executedBy recipients totalAmount timestamp : Nat)
  | BatchExecutedWithDualSig
      (batchId token submitter verifierExecutor recipients totalAmount timestamp : Nat)
deriving DecidableEq

/-- Contract storage plus the environment constants (`block.chainid`,
`address(this)`) and the external token-world state `tok`. -/
structure BDState (τ : Type) where
  chainId : Nat
  selfAddr : Nat
  hasAdminRole : Nat → Bool
  hasVerifierRole : Nat → Bool
  paused : Bool
  whitelistedToken : Nat → Bool
  isBatchExecuted : Nat → Bool
  maxBatchSize : Nat
  tok : τ

/-- `_precheckBatch`: the shared shape/replay checks, in source order. -/
def precheckBatch {τ : Type} (st : BDState τ)
    (batchId recipientsLen amountsLen : Nat) : Option Err :=
  if batchId = 0 then some .InvalidAmount
  else if st.isBatchExecuted batchId then some (.BatchAlreadyExecuted batchId)
  else if recipientsLen = 0 then some .EmptyBatch
  else if recipientsLen ≠ amountsLen then some .InvalidArrayLengths
  else if recipientsLen > st.maxBatchSize then some (.BatchTooLarge recipientsLen st.maxBatchSize)
  else none

/-- The token-path transfer loop: per recipient, require a non-zero
address and amount, call `erc20.transfer(to, amt)` (whose boolean result
the source ignores; `none` models the call reverting), and emit
`TransferItem`. -/
def transferLoop {τ : Type} (transferFn : τ → Nat → Nat → Nat → Option (τ × Bool))
    (token batchId : Nat) :
    τ → List Nat → List Nat → Except Err (τ × List Event)
  | tokSt, [], _ => .ok (tokSt, [])
  | _, _ :: _, [] => .error .Overflow
  | tokSt, toA :: restTo, amt :: restAmt =>
    if toA = 0 then .error .ZeroAddress
    else if amt = 0 then .error .InvalidAmount
    else
      match transferFn tokSt token toA amt with
      | none => .error (.RequireFail "ERC20_TRANSFER_REVERTED")
      | some (tokSt2, _ok) =>
        match transferLoop transferFn token batchId tokSt2 restTo restAmt with
        | .error e => .error e
        | .ok (tokEnd, evs) => .ok (tokEnd, Event.TransferItem batchId token toA amt :: evs)

/-- `batchDistributeTokenDualSig`, faithful to the source order:
`onlyRole(VERIFIER_ROLE)`, `whenNotPaused`, whitelist check,
`_precheckBatch`, digest construction (checked `_sum` reverts on
overflow), ECDSA recovery of the submitter, null / mismatch / duty
checks, the executed mark set before the transfers, the balance
`require`, the transfer loop, and the two aggregate events. -/
def batchDistributeTokenDualSig {τ : Type}
    (k : List Nat → Nat) (recover : Nat → List Nat → Nat)
    (transferFn : τ → Nat → Nat → Nat → Option (τ × Bool))
    (balanceOf : τ → Nat → Nat → Nat)
    (st : BDState τ) (caller now : Nat)
    (batchId token : Nat) (recipients amounts : List Nat)
    (deadline submitter : Nat) (submitterSig : List Nat) :
    Except Err (BDState τ × List Event) :=
  if st.hasVerifierRole caller = false then .error .NotAuthorized
  else if st.paused then .error .EnforcedPause
  else if st.whitelistedToken token = false then .error (.TokenNotWhitelisted token)
  else match precheckBatch st batchId recipients.length amounts.length with
  | some e => .error e
  | none =>
    match sum256 amounts with
    | none => .error .Overflow
    | some total =>
      let digest := batchTokenDigest k st.chainId st.selfAddr batchId token
        recipients amounts total deadline
      let recoveredSubmitter := recover digest submitterSig
      if recoveredSubmitter = 0 then .error .InvalidSignature
      else if recoveredSubmitter ≠ submitter then .error .InvalidSigner
      else if submitter = caller then .error .SameSubmitterAndExecutorNotAllowed
      else
        let st1 : BDState τ :=
          { st with isBatchExecuted := fun b => if b = batchId then true else st.isBatchExecuted b }
        if balanceOf st1.tok token st1.selfAddr < total then
          .error (.RequireFail "INSUFFICIENT_TOKEN_BALANCE")
        else
          match transferLoop transferFn token batchId st1.tok recipients amounts with
          | .error e => .error e
          | .ok (tokEnd, evs) =>
            .ok ({ st1 with tok := tokEnd },
                 evs ++ [.BatchExecutedWithDualSig batchId token submitter caller
                           recipients.length total now,
                         .BatchExecuted batchId token caller recipients.length total now])

/-- The native-path transfer loop: non-zero checks, the low-level
`to.call{value: amt}("")` whose boolean outcome `callOk` the source
`require`s, and the per-item event (with token = `address(0)`). -/
def nativeLoop (callOk : Nat → Nat → Bool) (batchId : Nat) :
    List Nat → List Nat → Except Err (List Event)
  | [], _ => .ok []
  | _ :: _, [] => .error .Overflow
  | toA :: restTo, amt :: restAmt =>
    if toA = 0 then .error .ZeroAddress
    else if amt = 0 then .error .InvalidAmount
    else if callOk toA amt = false then .error (.RequireFail "NATIVE_TRANSFER_FAILED")
    else
      match nativeLoop callOk batchId restTo restAmt with
      | .error e => .error e
      | .ok evs => .ok (Event.TransferItem batchId 0 toA amt :: evs)

/-- `batchDistributeNative`: `onlyRole(ADMIN_ROLE)`, `whenNotPaused`,
`_precheckBatch`, `_sum`, the exact `msg.value == total` requirement, the
executed mark, the push-transfer loop and the aggregate event.  No
signature argument exists and no recovery is performed. -/
def batchDistributeNative {τ : Type} (callOk : Nat → Nat → Bool)
    (st : BDState τ) (caller now msgValue : Nat)
    (batchId : Nat) (recipients amounts : List Nat) :
    Except Err (BDState τ × List Event) :=
  if st.hasAdminRole caller = false then .error .NotAuthorized
  else if st.paused then .error .EnforcedPause
  else match precheckBatch st batchId recipients.length amounts.length with
  | some e => .error e
  | none =>
    match sum256 amounts with
    | none => .error .Overflow
    | some total =>
      if msgValue ≠ total then .error (.RequireFail "NATIVE_VALUE_MISMATCH")
      else
        let st1 : BDState τ :=
          { st with isBatchExecuted := fun b => if b = batchId then true else st.isBatchExecuted b }
        match nativeLoop callOk batchId recipients amounts with
        | .error e => .error e
        | .ok evs =>
          .ok (st1, evs ++ [.BatchExecuted batchId 0 caller recipients.length total now])

/-- `pause` (OpenZeppelin `_pause` itself requires not-paused). -/
def pauseFn {τ : Type} (st : BDState τ) (caller : Nat) :
    Except Err (BDState τ × List Event) :=
  if st.hasAdminRole caller = false then .error .NotAuthorized
  else if st.paused then .error .EnforcedPause
  else .ok ({ st with paused := true }, [])

/-- `unpause` (OpenZeppelin `_unpause` requires paused). -/
def unpauseFn {τ : Type} (st : BDState τ) (caller : Nat) :
    Except Err (BDState τ × List Event) :=
  if st.hasAdminRole caller = false then .error .NotAuthorized
  else if st.paused = false then .error .ExpectedPause
  else .ok ({ st with paused := false }, [])

/-- `setMaxBatchSize`. -/
def setMaxBatchSize {τ : Type} (st : BDState τ) (caller newMax : Nat) :
    Except Err (BDState τ × List Event) :=
  if st.hasAdminRole caller = false then .error .NotAuthorized
  else if newMax = 0 then .error .InvalidAmount
  else .ok ({ st with maxBatchSize := newMax }, [])

/-- `setTokenWhitelisted`. -/
def setTokenWhitelisted {τ : Type} (st : BDState τ) (caller token : Nat)
    (allowed : Bool) : Except Err (BDState τ × List Event) :=
  if st.hasAdminRole caller = false then .error .NotAuthorized
  else if token = 0 then .error .ZeroAddress
  else .ok ({ st with whitelistedToken := fun t => if t = token then allowed else st.whitelistedToken t },
            [.TokenWhitelistUpdated token allowed])

/-- The state the caller observes after a call: reverts (`Except.error`)
leave the pre-call state untouched. -/
def stateAfter {τ : Type} (st : BDState τ)
    (r : Except Err (BDState τ × List Event)) : BDState τ :=
  match r with
  | .error _ => st
  | .ok (st', _) => st'

/-- A concrete 256-bit hash function used to instantiate the abstract
keccak parameter in witnesses. -/
def kDemo (bs : List Nat) : Nat :=
  bs.foldl (fun a b => a * 31 + b) 7 % 2 ^ 256

/-- A recovery function for witnesses: the "signature" simply names the
signer (`[]` recovers to the null identity). -/
def recoverDemo (_digest : Nat) (sig : List Nat) : Nat :=
  sig.headD 0

/-- A well-behaved demo ERC-20: balances are a map, every transfer
credits the recipient and returns `true`. -/
def transferDemo (bal : Nat → Nat) (_token toA amt : Nat) :
    Option ((Nat → Nat) × Bool) :=
  some ((fun a => if a = toA then bal a + amt else bal a), true)

/-- A demo ERC-20 whose `transfer` RETURNS FALSE (without reverting) for
recipient `4`, the way a blacklisting non-reverting token behaves. -/
def transferFalseFor4 (bal : Nat → Nat) (_token toA amt : Nat) :
    Option ((Nat → Nat) × Bool) :=
  if toA = 4 then some (bal, false)
  else some ((fun a => if a = toA then bal a + amt else bal a), true)

/-- `balanceOf` for the demo ERC-20s. -/
def balanceDemo (bal : Nat → Nat) (_token holder : Nat) : Nat :=
  bal holder

/-- A demo deployment: admin `7`, verifier `8`, whitelisted token `2`,
contract address `9` holding `1000000` token units, nothing executed. -/
def stDemo : BDState (Nat → Nat) :=
  { chainId := 56
    selfAddr := 9
    hasAdminRole := fun c => c == 7
    hasVerifierRole := fun c => c == 8
    paused := false
    whitelistedToken := fun t => t == 2
    isBatchExecuted := fun _ => false
    maxBatchSize := 500
    tok := fun a => if a = 9 then 1000000 else 0 }

/-- `stDemo` with batch `1` already marked executed. -/
def stDemoExecuted : BDState (Nat → Nat) :=
  { stDemo with isBatchExecuted := fun b => b == 1 }

/-- Spec-side definition (written from the claim's words, to compare
against the implementation): the check order asserted for
`batchDistributeTokenDualSig` — whitelist, non-zero `batchId`, replay,
non-empty, equal lengths, size bound, then signature recovery, signer
match and separation of duties — returning the error of the first
violated check (`none` when no listed check is violated; the
digest-dependent checks presuppose a digest, so nothing is returned for
them when `_sum` overflows and no digest exists). -/
def claimedFirstError {τ : Type} (k : List Nat → Nat)
    (recover : Nat → List Nat → Nat) (st : BDState τ)
    (caller batchId token : Nat) (recipients amounts : List Nat)
    (deadline submitter : Nat) (sig : List Nat) : Option Err :=
  if st.whitelistedToken token = false then some (.TokenNotWhitelisted token)
  else if batchId = 0 then some .InvalidAmount
  else if st.isBatchExecuted batchId then some (.BatchAlreadyExecuted batchId)
  else if recipients.length = 0 then some .EmptyBatch
  else if recipients.length ≠ amounts.length then some .InvalidArrayLengths
  else if recipients.length > st.maxBatchSize then
    some (.BatchTooLarge recipients.length st.maxBatchSize)
  else
    match sum256 amounts with
    | none => none
    | some total =>
      let r := recover (batchTokenDigest k st.chainId st.selfAddr batchId token
        recipients amounts total deadline) sig
      if r = 0 then some .InvalidSignature
      else if r ≠ submitter then some .InvalidSigner
      else if submitter = caller then some .SameSubmitterAndExecutorNotAllowed
      else none

/-- A native call that always succeeds, for witnesses. -/
def callOkDemo : Nat → Nat → Bool := fun _ _ => true

/-- The state reached from `stDemo` by successfully distributing native
batch `1`. -/
def stAfterNativeDemo : BDState (Nat → Nat) :=
  { stDemo with isBatchExecuted := fun b => if b = 1 then true else stDemo.isBatchExecuted b }

/-! ## Basic sum lemmas -/

theorem sum256Aux_spec (l : List Nat) : ∀ acc : Nat, acc < 2 ^ 256 →
    sum256Aux acc l =
      if acc + l.sum < 2 ^ 256 then some (acc + l.sum) else none := by
  induction l with
  | nil =>
    intro acc hacc
    simp only [sum256Aux, List.sum_nil, Nat.add_zero]
    rw [if_pos hacc]
  | cons a rest ih =>
    intro acc hacc
    simp only [sum256Aux, checkedAdd, List.sum_cons]
    by_cases h : acc + a < 2 ^ 256
    · simp only [if_pos h]
      rw [ih (acc + a) h, Nat.add_assoc]
    · simp only [if_neg h]
      rw [if_neg (by omega)]

theorem sum256_eq_of_lt {l : List Nat} (h : l.sum < 2 ^ 256) :
    sum256 l = some l.sum := by
  have hs := sum256Aux_spec l 0 (by positivity)
  rw [Nat.zero_add] at hs
  rw [sum256, hs, if_pos h]

theorem sum256_eq_none {l : List Nat} (h : 2 ^ 256 ≤ l.sum) :
    sum256 l = none := by
  have := sum256Aux_spec l 0 (by positivity)
  simp only [Nat.zero_add] at this
  rw [sum256, this, if_neg (by omega)]

theorem foldl_add_eq (l : List Nat) : ∀ acc : Nat,
    l.foldl (· + ·) acc = acc + l.sum := by
  induction l with
  | nil => intro acc; simp
  | cons a rest ih =>
    intro acc
    simp only [List.foldl_cons, List.sum_cons, ih (acc + a)]
    ring

theorem jsSum_eq_sum (l : List Nat) : jsSum l = l.sum := by
  simpa [jsSum] using foldl_add_eq l 0

theorem encodeTypeStr_batchToken :
    encodeTypeStr "BatchToken"
      [⟨"batchId", "bytes32"⟩, ⟨"token", "address"⟩,
       ⟨"recipientsHash", "bytes32"⟩, ⟨"amountsHash", "bytes32"⟩,
       ⟨"totalAmount", "uint256"⟩, ⟨"deadline", "uint256"⟩] =
    "BatchToken(bytes32 batchId,address token,bytes32 recipientsHash,bytes32 amountsHash,uint256 totalAmount,uint256 deadline)" := by
  rfl

/-- C1: for every batch input, the digest obtained by feeding
`getTypedData`'s domain/types/value to EIP-712 hashing (as `signTypedData`
does) is byte-for-byte the digest `getBatchTokenDigest` computes on-chain:
both hash `recipients` and `amounts` as ABI-encoded dynamic arrays, take
`totalAmount` as the sum of `amounts`, and bind the struct hash to the
domain `{name := "BatchDistributorV2", version := "1", chainId,
verifyingContract}`.  Stated for every 256-bit hash function `k` and all
in-range field values. -/
theorem offchain_onchain_digest_equal
    (k : List Nat → Nat) (hk : ∀ bs, k bs < 2 ^ 256)
    (chainId vc batchId token : Nat) (recipients amounts : List Nat) (deadline : Nat)
    (hc : chainId < 2 ^ 256) (hvc : vc < 2 ^ 160)
    (hb : batchId < 2 ^ 256) (ht : token < 2 ^ 160) (hd : deadline < 2 ^ 256) :
    hashTypedDataEthers k (getTypedData k chainId vc batchId token recipients amounts deadline)
      = getBatchTokenDigest k chainId vc batchId token recipients amounts deadline := by
  simp only [getTypedData, hashTypedDataEthers]
  rw [if_pos ⟨hc, hvc⟩]
  simp only [hashStructEthers, encodeFieldsData, findVal, encodeAtomicValue,
    encodeTypeStr_batchToken]
  simp [hb, ht, hd, hk, -Nat.reducePow]
  rw [jsSum_eq_sum]
  by_cases hs : amounts.sum < 2 ^ 256
  · rw [if_pos hs]
    simp only [getBatchTokenDigest, sum256_eq_of_lt hs, ethersDomainSeparator,
      batchTokenDigest, hashTypedDataV4, domainSeparatorV4, EIP712_DOMAIN_TYPEHASH,
      batchTokenStructHash, BATCH_TOKEN_TYPEHASH, abiEncodeWords, concatAll]
    simp [List.append_assoc]
  · rw [if_neg hs]
    simp [getBatchTokenDigest, sum256_eq_none (Nat.le_of_not_lt hs)]

theorem offchain_onchain_digest_equal_witness :
    hashTypedDataEthers kDemo (getTypedData kDemo 56 900 1 2 [3, 4] [100, 200] 1700000000)
      = getBatchTokenDigest kDemo 56 900 1 2 [3, 4] [100, 200] 1700000000 :=
  offchain_onchain_digest_equal kDemo (fun _ => Nat.mod_lt _ (by positivity))
    56 900 1 2 [3, 4] [100, 200] 1700000000
    (by norm_num) (by norm_num) (by norm_num) (by norm_num) (by norm_num)


/-! ## Helper lemmas about the execution paths -/

theorem precheck_none_facts {τ : Type} {st : BDState τ} {batchId rl al : Nat}
    (h : precheckBatch st batchId rl al = none) :
    batchId ≠ 0 ∧ st.isBatchExecuted batchId = false ∧ rl ≠ 0 ∧ rl = al ∧
      rl ≤ st.maxBatchSize := by
  unfold precheckBatch at h
  split_ifs at h with h1 h2 h3 h4 h5 <;>
    first
      | exact Option.noConfusion h
      | exact ⟨h1, by simpa using h2, h3, by omega, by omega⟩

theorem precheck_executed_some {τ : Type} (st : BDState τ) (batchId rl al : Nat)
    (hexec : st.isBatchExecuted batchId = true) :
    ∃ e, precheckBatch st batchId rl al = some e := by
  unfold precheckBatch
  by_cases hb : batchId = 0
  · exact ⟨_, by rw [if_pos hb]⟩
  · exact ⟨_, by rw [if_neg hb, if_pos hexec]⟩

theorem token_ok_executed {τ : Type} {k : List Nat → Nat} {recover : Nat → List Nat → Nat}
    {transferFn : τ → Nat → Nat → Nat → Option (τ × Bool)}
    {balanceOf : τ → Nat → Nat → Nat} {st : BDState τ}
    {caller now batchId token : Nat} {recipients amounts : List Nat}
    {deadline submitter : Nat} {sig : List Nat} {st' : BDState τ} {evs : List Event}
    (h : batchDistributeTokenDualSig k recover transferFn balanceOf st caller now
      batchId token recipients amounts deadline submitter sig = .ok (st', evs)) :
    st'.isBatchExecuted batchId = true ∧ batchId ≠ 0 ∧
    (∀ b, st.isBatchExecuted b = true → st'.isBatchExecuted b = true) := by
  simp only [batchDistributeTokenDualSig] at h
  split at h
  · exact Except.noConfusion h
  split at h
  · exact Except.noConfusion h
  split at h
  · exact Except.noConfusion h
  split at h
  · exact Except.noConfusion h
  next hpre =>
  split at h
  · exact Except.noConfusion h
  next total hsum =>
  split at h
  · exact Except.noConfusion h
  split at h
  · exact Except.noConfusion h
  split at h
  · exact Except.noConfusion h
  split at h
  · exact Except.noConfusion h
  split at h
  · exact Except.noConfusion h
  next tokEnd evs2 hloop =>
  injection h with h1
  rw [Prod.mk.injEq] at h1
  obtain ⟨h2, h3⟩ := h1
  subst h2
  refine ⟨by simp, (precheck_none_facts hpre).1, ?_⟩
  intro b hb
  by_cases hbb : b = batchId <;> simp [hbb, hb]

theorem native_ok_executed {τ : Type} {callOk : Nat → Nat → Bool} {st : BDState τ}
    {caller now msgValue batchId : Nat} {recipients amounts : List Nat}
    {st' : BDState τ} {evs : List Event}
    (h : batchDistributeNative callOk st caller now msgValue batchId recipients amounts
      = .ok (st', evs)) :
    st'.isBatchExecuted batchId = true ∧ batchId ≠ 0 ∧
    (∀ b, st.isBatchExecuted b = true → st'.isBatchExecuted b = true) := by
  simp only [batchDistributeNative] at h
  split at h
  · exact Except.noConfusion h
  split at h
  · exact Except.noConfusion h
  split at h
  · exact Except.noConfusion h
  next hpre =>
  split at h
  · exact Except.noConfusion h
  next total hsum =>
  split at h
  · exact Except.noConfusion h
  split at h
  · exact Except.noConfusion h
  next evs2 hloop =>
  injection h with h1
  rw [Prod.mk.injEq] at h1
  obtain ⟨h2, h3⟩ := h1
  subst h2
  refine ⟨by simp, (precheck_none_facts hpre).1, ?_⟩
  intro b hb
  by_cases hbb : b = batchId <;> simp [hbb, hb]

theorem token_call_executed_error {τ : Type} (k : List Nat → Nat)
    (recover : Nat → List Nat → Nat)
    (transferFn : τ → Nat → Nat → Nat → Option (τ × Bool))
    (balanceOf : τ → Nat → Nat → Nat) (st : BDState τ)
    (caller now batchId token : Nat) (recipients amounts : List Nat)
    (deadline submitter : Nat) (sig : List Nat)
    (hexec : st.isBatchExecuted batchId = true)
    (hrole : st.hasVerifierRole caller = true) (hp : st.paused = false)
    (hw : st.whitelistedToken token = true) (hbz : batchId ≠ 0) :
    batchDistributeTokenDualSig k recover transferFn balanceOf st caller now
      batchId token recipients amounts deadline submitter sig
      = .error (.BatchAlreadyExecuted batchId) := by
  have hpre : precheckBatch st batchId recipients.length amounts.length
      = some (.BatchAlreadyExecuted batchId) := by
    unfold precheckBatch
    rw [if_neg hbz, if_pos hexec]
  simp only [batchDistributeTokenDualSig, hrole, hp, hw, hpre,
    Bool.true_eq_false, Bool.false_eq_true, if_false]

theorem token_call_executed_revert {τ : Type} (k : List Nat → Nat)
    (recover : Nat → List Nat → Nat)
    (transferFn : τ → Nat → Nat → Nat → Option (τ × Bool))
    (balanceOf : τ → Nat → Nat → Nat) (st : BDState τ)
    (caller now batchId token : Nat) (recipients amounts : List Nat)
    (deadline submitter : Nat) (sig : List Nat)
    (hexec : st.isBatchExecuted batchId = true) :
    ∃ e, batchDistributeTokenDualSig k recover transferFn balanceOf st caller now
      batchId token recipients amounts deadline submitter sig = .error e := by
  simp only [batchDistributeTokenDualSig]
  split
  · exact ⟨_, rfl⟩
  split
  · exact ⟨_, rfl⟩
  split
  · exact ⟨_, rfl⟩
  obtain ⟨e, he⟩ := precheck_executed_some st batchId recipients.length amounts.length hexec
  rw [he]
  exact ⟨e, rfl⟩

theorem native_call_executed_error {τ : Type} (callOk : Nat → Nat → Bool) (st : BDState τ)
    (caller now msgValue batchId : Nat) (recipients amounts : List Nat)
    (hexec : st.isBatchExecuted batchId = true)
    (hrole : st.hasAdminRole caller = true) (hp : st.paused = false)
    (hbz : batchId ≠ 0) :
    batchDistributeNative callOk st caller now msgValue batchId recipients amounts
      = .error (.BatchAlreadyExecuted batchId) := by
  have hpre : precheckBatch st batchId recipients.length amounts.length
      = some (.BatchAlreadyExecuted batchId) := by
    unfold precheckBatch
    rw [if_neg hbz, if_pos hexec]
  simp only [batchDistributeNative, hrole, hp, hpre,
    Bool.true_eq_false, Bool.false_eq_true, if_false]

theorem native_call_executed_revert {τ : Type} (callOk : Nat → Nat → Bool) (st : BDState τ)
    (caller now msgValue batchId : Nat) (recipients amounts : List Nat)
    (hexec : st.isBatchExecuted batchId = true) :
    ∃ e, batchDistributeNative callOk st caller now msgValue batchId recipients amounts
      = .error e := by
  simp only [batchDistributeNative]
  split
  · exact ⟨_, rfl⟩
  split
  · exact ⟨_, rfl⟩
  obtain ⟨e, he⟩ := precheck_executed_some st batchId recipients.length amounts.length hexec
  rw [he]
  exact ⟨e, rfl⟩

/-! ## Claim theorems -/

/-- C9: for every amounts list, the `totalAmount` placed in the digest is
the exact arithmetic sum of the entries: the off-chain `sum` (bigint
`reduce`) is exact and is the `totalAmount` value of `getTypedData`'s
message, while the on-chain `_sum` is overflow-checked — it returns the
exact sum below `2 ^ 256` and fails (reverting the digest computation)
instead of wrapping at or above `2 ^ 256`. -/
theorem total_amount_exact_sum (k : List Nat → Nat)
    (chainId vc batchId token deadline : Nat) (recipients amounts : List Nat) :
    (jsSum amounts = amounts.sum) ∧
    (findVal (getTypedData k chainId vc batchId token recipients amounts deadline).value
        "totalAmount" = some amounts.sum) ∧
    (amounts.sum < 2 ^ 256 →
      sum256 amounts = some amounts.sum ∧
      getBatchTokenDigest k chainId vc batchId token recipients amounts deadline
        = some (batchTokenDigest k chainId vc batchId token recipients amounts
            amounts.sum deadline)) ∧
    (2 ^ 256 ≤ amounts.sum →
      sum256 amounts = none ∧
      getBatchTokenDigest k chainId vc batchId token recipients amounts deadline = none) := by
  refine ⟨jsSum_eq_sum amounts, ?_, ?_, ?_⟩
  · simp [getTypedData, findVal, jsSum_eq_sum]
  · intro h
    exact ⟨sum256_eq_of_lt h, by simp [getBatchTokenDigest, sum256_eq_of_lt h]⟩
  · intro h
    exact ⟨sum256_eq_none h, by simp [getBatchTokenDigest, sum256_eq_none h]⟩

theorem total_amount_exact_sum_witness :
    sum256 [100, 200] = some 300 ∧ jsSum [100, 200] = 300 :=
  ⟨((total_amount_exact_sum kDemo 56 900 1 2 99 [3, 4] [100, 200]).2.2.1 (by norm_num)).1,
   (total_amount_exact_sum kDemo 56 900 1 2 99 [3, 4] [100, 200]).1⟩

/-- C2 (demonstrating the defect): with an ERC-20 whose `transfer` returns
`false` for recipient `4` without reverting — a failed transfer step in
the ERC-20 sense — `batchDistributeTokenDualSig` does not revert: it
completes, pays recipient `3`, leaves recipient `4` unpaid, marks the
batch executed and still emits a `TransferItem` for the failed step,
because the source ignores the boolean returned by `erc20.transfer`.
This contradicts the claim that if any single per-recipient transfer step
fails the entire operation reverts with no partial state change.  (When
the transfer call reverts instead of returning `false`, the model's
`Except.error` propagation does abort the batch atomically.) -/
theorem unchecked_transfer_return_breaks_atomicity :
    ∃ st' evs,
      batchDistributeTokenDualSig kDemo recoverDemo transferFalseFor4 balanceDemo
        stDemo 8 1000 1 2 [3, 4] [100, 200] 99 6 [6] = .ok (st', evs) ∧
      st'.isBatchExecuted 1 = true ∧
      st'.tok 3 = 100 ∧
      st'.tok 4 = 0 ∧
      evs = [Event.TransferItem 1 2 3 100, Event.TransferItem 1 2 4 200,
             Event.BatchExecutedWithDualSig 1 2 6 8 2 300 1000,
             Event.BatchExecuted 1 2 8 2 300 1000] := by
  refine ⟨_, _, rfl, rfl, rfl, rfl, rfl⟩

/-- C3 counterexample: with batch `1` already executed, a subsequent call
whose token `3` is not whitelisted fails with `TokenNotWhitelisted 3`, not
with `BatchAlreadyExecuted 1` — the whitelist check precedes the replay
check, so the replay error is not reported "regardless of the other
fields differing". -/
theorem replay_error_not_unconditional :
    stDemoExecuted.isBatchExecuted 1 = true ∧
    batchDistributeTokenDualSig kDemo recoverDemo transferDemo balanceDemo
      stDemoExecuted 8 1000 1 3 [5] [10] 99 6 [6]
      = .error (.TokenNotWhitelisted 3) ∧
    Err.TokenNotWhitelisted 3 ≠ Err.BatchAlreadyExecuted 1 :=
  ⟨rfl, rfl, by decide⟩

/-- C3 (amended): once `isBatchExecuted batchId` is true, every further
`batchDistributeTokenDualSig` or `batchDistributeNative` call with that
`batchId` reverts (never succeeds, hence changes no state), and the error
is `BatchAlreadyExecuted batchId` whenever the checks that precede the
replay check pass (verifier role / admin role, not paused, whitelisted
token for the token path, non-zero `batchId`); moreover no operation of
the contract — either distribute path or any admin function — ever
resets the flag: every successful call preserves `isBatchExecuted batchId
= true`, so the transition unseen → executed is one-way. -/
theorem replay_one_way {τ : Type} (st : BDState τ) (batchId : Nat)
    (hexec : st.isBatchExecuted batchId = true) :
    (∀ (k : List Nat → Nat) (recover : Nat → List Nat → Nat)
        (transferFn : τ → Nat → Nat → Nat → Option (τ × Bool))
        (balanceOf : τ → Nat → Nat → Nat) (caller now token : Nat)
        (recipients amounts : List Nat) (deadline submitter : Nat) (sig : List Nat),
      ∃ e, batchDistributeTokenDualSig k recover transferFn balanceOf st caller now
        batchId token recipients amounts deadline submitter sig = .error e) ∧
    (∀ (k : List Nat → Nat) (recover : Nat → List Nat → Nat)
        (transferFn : τ → Nat → Nat → Nat → Option (τ × Bool))
        (balanceOf : τ → Nat → Nat → Nat) (caller now token : Nat)
        (recipients amounts : List Nat) (deadline submitter : Nat) (sig : List Nat),
      st.hasVerifierRole caller = true → st.paused = false →
      st.whitelistedToken token = true → batchId ≠ 0 →
      batchDistributeTokenDualSig k recover transferFn balanceOf st caller now
        batchId token recipients amounts deadline submitter sig
        = .error (.BatchAlreadyExecuted batchId)) ∧
    (∀ (callOk : Nat → Nat → Bool) (caller now msgValue : Nat)
        (recipients amounts : List Nat),
      ∃ e, batchDistributeNative callOk st caller now msgValue batchId
        recipients amounts = .error e) ∧
    (∀ (callOk : Nat → Nat → Bool) (caller now msgValue : Nat)
        (recipients amounts : List Nat),
      st.hasAdminRole caller = true → st.paused = false → batchId ≠ 0 →
      batchDistributeNative callOk st caller now msgValue batchId recipients amounts
        = .error (.BatchAlreadyExecuted batchId)) ∧
    (∀ (k : List Nat → Nat) (recover : Nat → List Nat → Nat)
        (transferFn : τ → Nat → Nat → Nat → Option (τ × Bool))
        (balanceOf : τ → Nat → Nat → Nat) (caller now b2 token : Nat)
        (recipients amounts : List Nat) (deadline submitter : Nat) (sig : List Nat)
        (st' : BDState τ) (evs : List Event),
      batchDistributeTokenDualSig k recover transferFn balanceOf st caller now
        b2 token recipients amounts deadline submitter sig = .ok (st', evs) →
      st'.isBatchExecuted batchId = true) ∧
    (∀ (callOk : Nat → Nat → Bool) (caller now msgValue b2 : Nat)
        (recipients amounts : List Nat) (st' : BDState τ) (evs : List Event),
      batchDistributeNative callOk st caller now msgValue b2 recipients amounts
        = .ok (st', evs) →
      st'.isBatchExecuted batchId = true) ∧
    (∀ (caller : Nat) (st' : BDState τ) (evs : List Event),
      pauseFn st caller = .ok (st', evs) → st'.isBatchExecuted batchId = true) ∧
    (∀ (caller : Nat) (st' : BDState τ) (evs : List Event),
      unpauseFn st caller = .ok (st', evs) → st'.isBatchExecuted batchId = true) ∧
    (∀ (caller newMax : Nat) (st' : BDState τ) (evs : List Event),
      setMaxBatchSize st caller newMax = .ok (st', evs) →
      st'.isBatchExecuted batchId = true) ∧
    (∀ (caller token : Nat) (allowed : Bool) (st' : BDState τ) (evs : List Event),
      setTokenWhitelisted st caller token allowed = .ok (st', evs) →
      st'.isBatchExecuted batchId = true) := by
  refine ⟨?_, ?_, ?_, ?_, ?_, ?_, ?_, ?_, ?_, ?_⟩
  · intro k recover transferFn balanceOf caller now token recipients amounts deadline submitter sig
    exact token_call_executed_revert k recover transferFn balanceOf st caller now
      batchId token recipients amounts deadline submitter sig hexec
  · intro k recover transferFn balanceOf caller now token recipients amounts deadline submitter sig hrole hp hw hbz
    exact token_call_executed_error k recover transferFn balanceOf st caller now
      batchId token recipients amounts deadline submitter sig hexec hrole hp hw hbz
  · intro callOk caller now msgValue recipients amounts
    exact native_call_executed_revert callOk st caller now msgValue batchId
      recipients amounts hexec
  · intro callOk caller now msgValue recipients amounts hrole hp hbz
    exact native_call_executed_error callOk st caller now msgValue batchId
      recipients amounts hexec hrole hp hbz
  · intro k recover transferFn balanceOf caller now b2 token recipients amounts deadline submitter sig st' evs h
    exact (token_ok_executed h).2.2 batchId hexec
  · intro callOk caller now msgValue b2 recipients amounts st' evs h
    exact (native_ok_executed h).2.2 batchId hexec
  · intro caller st' evs h
    simp only [pauseFn] at h
    split at h
    · exact Except.noConfusion h
    split at h
    · exact Except.noConfusion h
    injection h with h1
    rw [Prod.mk.injEq] at h1
    obtain ⟨h2, h3⟩ := h1
    subst h2
    simpa using hexec
  · intro caller st' evs h
    simp only [unpauseFn] at h
    split at h
    · exact Except.noConfusion h
    split at h
    · exact Except.noConfusion h
    injection h with h1
    rw [Prod.mk.injEq] at h1
    obtain ⟨h2, h3⟩ := h1
    subst h2
    simpa using hexec
  · intro caller newMax st' evs h
    simp only [setMaxBatchSize] at h
    split at h
    · exact Except.noConfusion h
    split at h
    · exact Except.noConfusion h
    injection h with h1
    rw [Prod.mk.injEq] at h1
    obtain ⟨h2, h3⟩ := h1
    subst h2
    simpa using hexec
  · intro caller token allowed st' evs h
    simp only [setTokenWhitelisted] at h
    split at h
    · exact Except.noConfusion h
    split at h
    · exact Except.noConfusion h
    injection h with h1
    rw [Prod.mk.injEq] at h1
    obtain ⟨h2, h3⟩ := h1
    subst h2
    simpa using hexec

theorem replay_one_way_witness :
    batchDistributeTokenDualSig kDemo recoverDemo transferDemo balanceDemo
      stDemoExecuted 8 1000 1 2 [3] [5] 99 6 [6]
      = .error (.BatchAlreadyExecuted 1) :=
  (replay_one_way stDemoExecuted 1 rfl).2.1 kDemo recoverDemo transferDemo balanceDemo
    8 1000 2 [3] [5] 99 6 [6] rfl rfl rfl (by decide)

/-- C4: `batchDistributeTokenDualSig` never compares `deadline` with the
current time: for arbitrary `deadline` and arbitrary block timestamp
`now` (in particular `deadline < now`, i.e. strictly in the past), the
call succeeds whenever the other preconditions — whitelist, batch shape,
replay, signature over the digest with that very deadline, separation of
duties, balance, and the transfers themselves — hold; and the deadline
influences the call only through the digest: calls whose digests coincide
behave identically. -/
theorem deadline_not_enforced {τ : Type} (k : List Nat → Nat)
    (recover : Nat → List Nat → Nat)
    (transferFn : τ → Nat → Nat → Nat → Option (τ × Bool))
    (balanceOf : τ → Nat → Nat → Nat) (st : BDState τ)
    (caller now batchId token : Nat) (recipients amounts : List Nat)
    (deadline submitter : Nat) (sig : List Nat) (total : Nat)
    (tokEnd : τ) (evs : List Event)
    (hrole : st.hasVerifierRole caller = true) (hp : st.paused = false)
    (hw : st.whitelistedToken token = true)
    (hpre : precheckBatch st batchId recipients.length amounts.length = none)
    (hsum : sum256 amounts = some total)
    (hrec : recover (batchTokenDigest k st.chainId st.selfAddr batchId token
      recipients amounts total deadline) sig = submitter)
    (hnz : submitter ≠ 0) (hne : submitter ≠ caller)
    (hbal : ¬ balanceOf st.tok token st.selfAddr < total)
    (hloop : transferLoop transferFn token batchId st.tok recipients amounts
      = .ok (tokEnd, evs)) :
    batchDistributeTokenDualSig k recover transferFn balanceOf st caller now
      batchId token recipients amounts deadline submitter sig
      = .ok ({ st with
                isBatchExecuted := fun b => if b = batchId then true else st.isBatchExecuted b,
                tok := tokEnd },
             evs ++ [Event.BatchExecutedWithDualSig batchId token submitter caller
                       recipients.length total now,
                     Event.BatchExecuted batchId token caller recipients.length total now]) ∧
    (∀ d2,
      batchTokenDigest k st.chainId st.selfAddr batchId token recipients amounts total d2
        = batchTokenDigest k st.chainId st.selfAddr batchId token recipients amounts total deadline →
      batchDistributeTokenDualSig k recover transferFn balanceOf st caller now
        batchId token recipients amounts d2 submitter sig
        = batchDistributeTokenDualSig k recover transferFn balanceOf st caller now
            batchId token recipients amounts deadline submitter sig) := by
  constructor
  · simp only [batchDistributeTokenDualSig, hrole, hp, hw, hpre, hsum, hrec]
    simp [hnz, hne, hbal, hloop]
  · intro d2 hd
    simp only [batchDistributeTokenDualSig, hsum, hd]

theorem deadline_not_enforced_witness :
    batchDistributeTokenDualSig kDemo recoverDemo transferDemo balanceDemo stDemo
      8 1000 1 2 [3] [5] 99 6 [6]
      = .ok ({ stDemo with
                isBatchExecuted := fun b => if b = 1 then true else stDemo.isBatchExecuted b,
                tok := fun a => if a = 3 then stDemo.tok a + 5 else stDemo.tok a },
             [Event.TransferItem 1 2 3 5,
              Event.BatchExecutedWithDualSig 1 2 6 8 1 5 1000,
              Event.BatchExecuted 1 2 8 1 5 1000]) :=
  (deadline_not_enforced kDemo recoverDemo transferDemo balanceDemo stDemo
    8 1000 1 2 [3] [5] 99 6 [6] 5
    (fun a => if a = 3 then stDemo.tok a + 5 else stDemo.tok a)
    [Event.TransferItem 1 2 3 5]
    rfl rfl rfl rfl rfl rfl (by decide) (by decide) (by decide) rfl).1

/-- C5: once the whitelist, shape and replay checks pass and the digest
exists, a submitter signature whose recovery yields the null identity
makes `batchDistributeTokenDualSig` fail with `InvalidSignature`, and only
a recovery yielding a non-null identity different from the declared
submitter makes it fail with `InvalidSigner`. -/
theorem signature_error_cases {τ : Type} (k : List Nat → Nat)
    (recover : Nat → List Nat → Nat)
    (transferFn : τ → Nat → Nat → Nat → Option (τ × Bool))
    (balanceOf : τ → Nat → Nat → Nat) (st : BDState τ)
    (caller now batchId token : Nat) (recipients amounts : List Nat)
    (deadline submitter : Nat) (sig : List Nat) (total : Nat)
    (hrole : st.hasVerifierRole caller = true) (hp : st.paused = false)
    (hw : st.whitelistedToken token = true)
    (hpre : precheckBatch st batchId recipients.length amounts.length = none)
    (hsum : sum256 amounts = some total) :
    (recover (batchTokenDigest k st.chainId st.selfAddr batchId token
        recipients amounts total deadline) sig = 0 →
      batchDistributeTokenDualSig k recover transferFn balanceOf st caller now
        batchId token recipients amounts deadline submitter sig
        = .error .InvalidSignature) ∧
    (recover (batchTokenDigest k st.chainId st.selfAddr batchId token
        recipients amounts total deadline) sig ≠ 0 →
      recover (batchTokenDigest k st.chainId st.selfAddr batchId token
        recipients amounts total deadline) sig ≠ submitter →
      batchDistributeTokenDualSig k recover transferFn balanceOf st caller now
        batchId token recipients amounts deadline submitter sig
        = .error .InvalidSigner) := by
  constructor
  · intro h0
    simp only [batchDistributeTokenDualSig, hrole, hp, hw, hpre, hsum]
    simp [h0]
  · intro h1 h2
    simp only [batchDistributeTokenDualSig, hrole, hp, hw, hpre, hsum]
    simp [h1, h2]

theorem signature_error_cases_witness :
    batchDistributeTokenDualSig kDemo recoverDemo transferDemo balanceDemo stDemo
      8 1000 1 2 [3] [5] 99 6 []
      = .error .InvalidSignature ∧
    batchDistributeTokenDualSig kDemo recoverDemo transferDemo balanceDemo stDemo
      8 1000 1 2 [3] [5] 99 6 [5]
      = .error .InvalidSigner :=
  ⟨(signature_error_cases kDemo recoverDemo transferDemo balanceDemo stDemo
      8 1000 1 2 [3] [5] 99 6 [] 5 rfl rfl rfl rfl rfl).1 rfl,
   (signature_error_cases kDemo recoverDemo transferDemo balanceDemo stDemo
      8 1000 1 2 [3] [5] 99 6 [5] 5 rfl rfl rfl rfl rfl).2 (by decide) (by decide)⟩

/-- C6: for a caller holding the verifier role while the contract is not
paused, whenever the spec's ordered list of preconditions — whitelist
(`TokenNotWhitelisted`), non-zero `batchId` (`InvalidAmount`), replay
(`BatchAlreadyExecuted`), non-empty (`EmptyBatch`), equal lengths
(`InvalidArrayLengths`), size bound (`BatchTooLarge`), signature recovery
(`InvalidSignature`), signer match (`InvalidSigner`), separation of
duties (`SameSubmitterAndExecutorNotAllowed`) — has a first violated
check, `batchDistributeTokenDualSig` reverts with exactly that check's
error. -/
theorem first_violation_error {τ : Type} (k : List Nat → Nat)
    (recover : Nat → List Nat → Nat)
    (transferFn : τ → Nat → Nat → Nat → Option (τ × Bool))
    (balanceOf : τ → Nat → Nat → Nat) (st : BDState τ)
    (caller now batchId token : Nat) (recipients amounts : List Nat)
    (deadline submitter : Nat) (sig : List Nat)
    (hrole : st.hasVerifierRole caller = true) (hp : st.paused = false) :
    ∀ e, claimedFirstError k recover st caller batchId token recipients amounts
        deadline submitter sig = some e →
      batchDistributeTokenDualSig k recover transferFn balanceOf st caller now
        batchId token recipients amounts deadline submitter sig = .error e := by
  intro e he
  simp only [claimedFirstError] at he
  simp only [batchDistributeTokenDualSig, precheckBatch, hrole, hp,
    Bool.true_eq_false, Bool.false_eq_true, if_false]
  by_cases h1 : st.whitelistedToken token = false
  · rw [if_pos h1] at he ⊢
    injection he with he1
    subst he1
    rfl
  · rw [if_neg h1] at he ⊢
    by_cases h2 : batchId = 0
    · rw [if_pos h2] at he ⊢
      injection he with he1
      subst he1
      rfl
    · rw [if_neg h2] at he ⊢
      by_cases h3 : st.isBatchExecuted batchId = true
      · rw [if_pos h3] at he ⊢
        injection he with he1
        subst he1
        rfl
      · rw [if_neg h3] at he ⊢
        by_cases h4 : recipients.length = 0
        · rw [if_pos h4] at he ⊢
          injection he with he1
          subst he1
          rfl
        · rw [if_neg h4] at he ⊢
          by_cases h5 : recipients.length ≠ amounts.length
          · rw [if_pos h5] at he ⊢
            injection he with he1
            subst he1
            rfl
          · rw [if_neg h5] at he ⊢
            by_cases h6 : recipients.length > st.maxBatchSize
            · rw [if_pos h6] at he ⊢
              injection he with he1
              subst he1
              rfl
            · rw [if_neg h6] at he ⊢
              cases hs : sum256 amounts with
              | none =>
                rw [hs] at he
                cases he
              | some total =>
                rw [hs] at he
                dsimp only at he ⊢
                by_cases h7 : recover (batchTokenDigest k st.chainId st.selfAddr batchId
                    token recipients amounts total deadline) sig = 0
                · rw [if_pos h7] at he ⊢
                  injection he with he1
                  subst he1
                  rfl
                · rw [if_neg h7] at he ⊢
                  by_cases h8 : recover (batchTokenDigest k st.chainId st.selfAddr batchId
                      token recipients amounts total deadline) sig ≠ submitter
                  · rw [if_pos h8] at he ⊢
                    injection he with he1
                    subst he1
                    rfl
                  · rw [if_neg h8] at he ⊢
                    by_cases h9 : submitter = caller
                    · rw [if_pos h9] at he ⊢
                      injection he with he1
                      subst he1
                      rfl
                    · rw [if_neg h9] at he
                      cases he

theorem first_violation_error_witness :
    batchDistributeTokenDualSig kDemo recoverDemo transferDemo balanceDemo stDemo
      8 1000 1 2 [] ([] : List Nat) 99 6 [6] = .error .EmptyBatch :=
  first_violation_error kDemo recoverDemo transferDemo balanceDemo stDemo
    8 1000 1 2 [] [] 99 6 [6] rfl rfl Err.EmptyBatch rfl

/-- C7: when the declared submitter coincides with the executing caller
and the signature over the digest is valid for that identity (recovers to
it, non-null), `batchDistributeTokenDualSig` fails with
`SameSubmitterAndExecutorNotAllowed`, transferring nothing and leaving
the state unchanged. -/
theorem separation_of_duty_enforced {τ : Type} (k : List Nat → Nat)
    (recover : Nat → List Nat → Nat)
    (transferFn : τ → Nat → Nat → Nat → Option (τ × Bool))
    (balanceOf : τ → Nat → Nat → Nat) (st : BDState τ)
    (caller now batchId token : Nat) (recipients amounts : List Nat)
    (deadline submitter : Nat) (sig : List Nat) (total : Nat)
    (hrole : st.hasVerifierRole caller = true) (hp : st.paused = false)
    (hw : st.whitelistedToken token = true)
    (hpre : precheckBatch st batchId recipients.length amounts.length = none)
    (hsum : sum256 amounts = some total)
    (hrec : recover (batchTokenDigest k st.chainId st.selfAddr batchId token
      recipients amounts total deadline) sig = submitter)
    (hnz : submitter ≠ 0) (heq : submitter = caller) :
    batchDistributeTokenDualSig k recover transferFn balanceOf st caller now
      batchId token recipients amounts deadline submitter sig
      = .error .SameSubmitterAndExecutorNotAllowed ∧
    stateAfter st (batchDistributeTokenDualSig k recover transferFn balanceOf st caller
      now batchId token recipients amounts deadline submitter sig) = st := by
  have hcall : batchDistributeTokenDualSig k recover transferFn balanceOf st caller now
      batchId token recipients amounts deadline submitter sig
      = .error .SameSubmitterAndExecutorNotAllowed := by
    subst heq
    simp only [batchDistributeTokenDualSig, hrole, hp, hw, hpre, hsum, hrec]
    simp [hnz]
  exact ⟨hcall, by rw [hcall]; rfl⟩

theorem separation_of_duty_enforced_witness :
    batchDistributeTokenDualSig kDemo recoverDemo transferDemo balanceDemo stDemo
      8 1000 1 2 [3] [5] 99 8 [8]
      = .error .SameSubmitterAndExecutorNotAllowed :=
  (separation_of_duty_enforced kDemo recoverDemo transferDemo balanceDemo stDemo
    8 1000 1 2 [3] [5] 99 8 [8] 5 rfl rfl rfl rfl rfl rfl (by decide) rfl).1

/-- C8: `batchDistributeNative` (whose signature carries no signature
argument and which performs no recovery) requires the attached value to
exactly equal the sum of the amounts, failing with the
`NATIVE_VALUE_MISMATCH` require otherwise; it applies the very shape
prechecks of the token path (`_precheckBatch`: non-zero `batchId`,
unexecuted, non-empty, equal lengths, within `maxBatchSize`), any of
whose violations yields the same error on both paths; a failing push
transfer in the per-recipient loop reverts the whole call; and on success
it runs the same per-recipient transfer/emit loop followed by the
aggregate event. -/
theorem native_path_properties {τ : Type} (callOk : Nat → Nat → Bool) (st : BDState τ)
    (caller now msgValue batchId : Nat) (recipients amounts : List Nat)
    (hrole : st.hasAdminRole caller = true) (hp : st.paused = false) :
    (∀ total, precheckBatch st batchId recipients.length amounts.length = none →
      sum256 amounts = some total → msgValue ≠ total →
      batchDistributeNative callOk st caller now msgValue batchId recipients amounts
        = .error (.RequireFail "NATIVE_VALUE_MISMATCH")) ∧
    (∀ e, precheckBatch st batchId recipients.length amounts.length = some e →
      batchDistributeNative callOk st caller now msgValue batchId recipients amounts
        = .error e ∧
      (∀ (k : List Nat → Nat) (recover : Nat → List Nat → Nat)
          (transferFn : τ → Nat → Nat → Nat → Option (τ × Bool))
          (balanceOf : τ → Nat → Nat → Nat) (callerV token deadline submitter : Nat)
          (sig : List Nat),
        st.hasVerifierRole callerV = true → st.whitelistedToken token = true →
        batchDistributeTokenDualSig k recover transferFn balanceOf st callerV now
          batchId token recipients amounts deadline submitter sig = .error e)) ∧
    (∀ total e, precheckBatch st batchId recipients.length amounts.length = none →
      sum256 amounts = some total → msgValue = total →
      nativeLoop callOk batchId recipients amounts = .error e →
      batchDistributeNative callOk st caller now msgValue batchId recipients amounts
        = .error e) ∧
    (∀ total evs, precheckBatch st batchId recipients.length amounts.length = none →
      sum256 amounts = some total → msgValue = total →
      nativeLoop callOk batchId recipients amounts = .ok evs →
      batchDistributeNative callOk st caller now msgValue batchId recipients amounts
        = .ok ({ st with
                  isBatchExecuted := fun b => if b = batchId then true else st.isBatchExecuted b },
               evs ++ [Event.BatchExecuted batchId 0 caller recipients.length total now])) := by
  refine ⟨?_, ?_, ?_, ?_⟩
  · intro total hpre hsum hneq
    simp only [batchDistributeNative, hrole, hp, hpre, hsum,
      Bool.true_eq_false, Bool.false_eq_true, if_false]
    simp [hneq]
  · intro e hpre
    constructor
    · simp only [batchDistributeNative, hrole, hp, hpre,
        Bool.true_eq_false, Bool.false_eq_true, if_false]
    · intro k recover transferFn balanceOf callerV token deadline submitter sig hrv hw
      simp only [batchDistributeTokenDualSig, hrv, hw, hp, hpre,
        Bool.true_eq_false, Bool.false_eq_true, if_false]
  · intro total e hpre hsum hveq hloop
    subst hveq
    simp only [batchDistributeNative, hrole, hp, hpre, hsum,
      Bool.true_eq_false, Bool.false_eq_true, if_false]
    simp [hloop]
  · intro total evs hpre hsum hveq hloop
    subst hveq
    simp only [batchDistributeNative, hrole, hp, hpre, hsum,
      Bool.true_eq_false, Bool.false_eq_true, if_false]
    simp [hloop]

theorem native_path_properties_witness :
    batchDistributeNative callOkDemo stDemo 7 1000 4 1 [3] [5]
      = .error (.RequireFail "NATIVE_VALUE_MISMATCH") :=
  (native_path_properties callOkDemo stDemo 7 1000 4 1 [3] [5] rfl rfl).1
    5 rfl rfl (by decide)

/-- C10: the two execution paths share the single `isBatchExecuted`
ledger: after a successful `batchDistributeNative` for a `batchId`, a
`batchDistributeTokenDualSig` for the same `batchId` (any token, any
arrays, any signature, any caller passing the role/pause/whitelist
gates) reverts with `BatchAlreadyExecuted`, and symmetrically after a
successful token distribution the native path reverts with
`BatchAlreadyExecuted` — even though the two paths move different
assets. -/
theorem shared_executed_ledger {τ : Type} :
    (∀ (callOk : Nat → Nat → Bool) (st : BDState τ)
        (callerA now msgValue batchId : Nat) (recipients amounts : List Nat)
        (st' : BDState τ) (evs : List Event),
      batchDistributeNative callOk st callerA now msgValue batchId recipients amounts
        = .ok (st', evs) →
      ∀ (k : List Nat → Nat) (recover : Nat → List Nat → Nat)
          (transferFn : τ → Nat → Nat → Nat → Option (τ × Bool))
          (balanceOf : τ → Nat → Nat → Nat) (callerV now2 token : Nat)
          (r2 a2 : List Nat) (deadline submitter : Nat) (sig : List Nat),
        st'.hasVerifierRole callerV = true → st'.paused = false →
        st'.whitelistedToken token = true →
        batchDistributeTokenDualSig k recover transferFn balanceOf st' callerV now2
          batchId token r2 a2 deadline submitter sig
          = .error (.BatchAlreadyExecuted batchId)) ∧
    (∀ (k : List Nat → Nat) (recover : Nat → List Nat → Nat)
        (transferFn : τ → Nat → Nat → Nat → Option (τ × Bool))
        (balanceOf : τ → Nat → Nat → Nat) (st : BDState τ)
        (callerV now batchId token : Nat) (recipients amounts : List Nat)
        (deadline submitter : Nat) (sig : List Nat)
        (st' : BDState τ) (evs : List Event),
      batchDistributeTokenDualSig k recover transferFn balanceOf st callerV now
        batchId token recipients amounts deadline submitter sig = .ok (st', evs) →
      ∀ (callOk : Nat → Nat → Bool) (callerA now2 msgValue : Nat) (r2 a2 : List Nat),
        st'.hasAdminRole callerA = true → st'.paused = false →
        batchDistributeNative callOk st' callerA now2 msgValue batchId r2 a2
          = .error (.BatchAlreadyExecuted batchId)) := by
  constructor
  · intro callOk st callerA now msgValue batchId recipients amounts st' evs h
    intro k recover transferFn balanceOf callerV now2 token r2 a2 deadline submitter sig hrv hp hw
    obtain ⟨hex, hbz, _⟩ := native_ok_executed h
    exact token_call_executed_error k recover transferFn balanceOf st' callerV now2
      batchId token r2 a2 deadline submitter sig hex hrv hp hw hbz
  · intro k recover transferFn balanceOf st callerV now batchId token recipients amounts deadline submitter sig st' evs h
    intro callOk callerA now2 msgValue r2 a2 hra hp
    obtain ⟨hex, hbz, _⟩ := token_ok_executed h
    exact native_call_executed_error callOk st' callerA now2 msgValue batchId r2 a2
      hex hra hp hbz

theorem shared_executed_ledger_witness :
    batchDistributeTokenDualSig kDemo recoverDemo transferDemo balanceDemo
      stAfterNativeDemo 8 2000 1 2 [4] [7] 99 6 [6]
      = .error (.BatchAlreadyExecuted 1) :=
  (@shared_executed_ledger (Nat → Nat)).1 callOkDemo stDemo 7 1000 5 1 [3] [5]
    stAfterNativeDemo
    [Event.TransferItem 1 0 3 5, Event.BatchExecuted 1 0 7 1 5 1000] rfl
    kDemo recoverDemo transferDemo balanceDemo 8 2000 2 [4] [7] 99 6 [6] rfl rfl rfl
